import Mathlib

/-!
Verification of the `View` data model from `packages/datagrid/src/view.ts`
(PhosphorJS datagrid): a read-only, schema-driven addressing layer over an
in-memory tabular dataset.

Embedding conventions:
* JSON scalar cell values are the inductive `JSValue`; the JS `undefined`
  produced by a missing record key is an explicit constructor.  JSON numbers
  are modelled as integers (no property here depends on non-integral values).
* A record (`ReadonlyJSONObject`) is an association list from field names to
  values; absent keys read as `undefined`.
* Region tags are plain strings, as in the TypeScript string-literal union,
  so that the defensive `default: throw 'unreachable'` branch is reachable
  in the model exactly as it is at runtime.
* Code that can throw is modelled with `Except JSError`: indexing past the
  end of an array and then dereferencing yields `typeError`; the region
  switch default yields `unreachable`.
* The missing-values map `{ [key: string]: boolean }` built by
  `createMissingMap` (keys mapped to `true`) is modelled by the list of its
  keys; the membership test `map[value] === true` is `List.contains`.
-/

/-- A JSON-like scalar cell value, plus the JS `undefined`. -/
inductive JSValue where
  | undefined : JSValue
  | null : JSValue
  | str : String → JSValue
  | num : Int → JSValue
  | bool : Bool → JSValue
  deriving DecidableEq, Repr

/-- Errors thrown by `View.data`: the `default: throw 'unreachable'` branch
of the region switch, and the TypeError raised by dereferencing the
`undefined` produced by an out-of-range array access. -/
inductive JSError where
  | unreachable : JSError
  | typeError : JSError
  deriving DecidableEq, Repr

/-- A column descriptor: `View.IField` from the source
(`{ name: string; type: string }`). -/
structure View.IField where
  name : String
  type : String
  deriving DecidableEq, Repr

/-- A schema: `View.ISchema` from the source.  `primaryKey` is
`string | string[] | undefined`, modelled as an optional sum. -/
structure View.ISchema where
  fields : List View.IField
  missingValues : Option (List String) := none
  primaryKey : Option (String ⊕ List String) := none

/-- One row: a `ReadonlyJSONObject` modelled as an association list from
field names to values. -/
abbrev View.Record := List (String × JSValue)

/-- `View.DataSource`: an ordered sequence of records. -/
abbrev View.DataSource := List View.Record

/-- JS property read `record[key]`: the stored value, or `undefined` when
the key is absent. -/
def View.Record.get (record : View.Record) (key : String) : JSValue :=
  match List.lookup key record with
  | some value => value
  | none => JSValue.undefined

/-- The result record of `Private.splitFields`. -/
structure Private.ISplitFieldsResult where
  bodyFields : List View.IField
  headerFields : List View.IField
  deriving DecidableEq, Repr

/-- Normalization of `schema.primaryKey` performed at the top of
`Private.splitFields`: absent becomes the empty list, a single string a
one-element list, and an array is taken as given. -/
def Private.normalizePrimaryKey (primaryKey : Option (String ⊕ List String)) :
    List String :=
  match primaryKey with
  | none => []
  | some (Sum.inl s) => [s]
  | some (Sum.inr keys) => keys

/-- The field loop of `Private.splitFields`: each field is pushed to the
body list when `primaryKeys.indexOf(field.name) === -1` (the name is not a
member), else to the header list, preserving the iteration order. -/
def Private.splitLoop (primaryKeys : List String) :
    List View.IField → List View.IField × List View.IField
  | [] => ([], [])
  | field :: rest =>
    let r := Private.splitLoop primaryKeys rest
    if primaryKeys.contains field.name then
      (r.1, field :: r.2)
    else
      (field :: r.1, r.2)

/-- `Private.splitFields` from the source: split the schema fields into
header (primary-key) and body fields. -/
def Private.splitFields (schema : View.ISchema) : Private.ISplitFieldsResult :=
  let primaryKeys := Private.normalizePrimaryKey schema.primaryKey
  let r := Private.splitLoop primaryKeys schema.fields
  { bodyFields := r.1, headerFields := r.2 }

/-- `Private.createMissingMap` from the source: `null` when `missingValues`
is absent or empty, otherwise the map whose keys are the listed strings
(modelled by the key list; duplicate keys collapse under membership). -/
def Private.createMissingMap (schema : View.ISchema) : Option (List String) :=
  match schema.missingValues with
  | none => none
  | some values => if values.length = 0 then none else some values

/-- The missing-value test inlined in `View.data`:
`missingValues !== null && typeof value === 'string' && missingValues[value] === true`. -/
def Private.isMissing (missingValues : Option (List String)) (value : JSValue) :
    Bool :=
  match missingValues, value with
  | some m, JSValue.str s => m.contains s
  | _, _ => false

/-- The `View` class state: the four private fields set by the constructor. -/
structure View where
  _data : View.DataSource
  _bodyFields : List View.IField
  _headerFields : List View.IField
  _missingValues : Option (List String)

/-- `View.IOptions`: the constructor options. -/
structure View.IOptions where
  schema : View.ISchema
  data : View.DataSource

/-- The `View` constructor: split the schema fields and build the
missing-values map once, and hold the dataset reference. -/
def View.create (options : View.IOptions) : View :=
  let split := Private.splitFields options.schema
  { _data := options.data
    _bodyFields := split.bodyFields
    _headerFields := split.headerFields
    _missingValues := Private.createMissingMap options.schema }

/-- `View.rowCount`: the dataset length for the body region, `1` otherwise. -/
def View.rowCount (v : View) (region : String) : Nat :=
  if region = "body" then v._data.length else 1

/-- `View.columnCount`: the body field count for the body region, the
header field count otherwise. -/
def View.columnCount (v : View) (region : String) : Nat :=
  if region = "body" then v._bodyFields.length else v._headerFields.length

/-- `View.metadata`: the column's field descriptor; an out-of-range column
reads as `undefined` in JS, modelled by `Option`. -/
def View.metadata (v : View) (region : String) (column : Nat) :
    Option View.IField :=
  if region = "body" ∨ region = "column-header" then
    v._bodyFields[column]?
  else
    v._headerFields[column]?

/-- `View.data`: the region switch resolves a field and raw value (body and
row-header read the record at `row` under the field's name; the header
regions use the field name itself as the value), then the missing-value
substitution maps a matched string to `null`.  An out-of-range field or row
dereference throws a TypeError; an unknown region tag hits the
`default: throw 'unreachable'` branch. -/
def View.data (v : View) (region : String) (row column : Nat) :
    Except JSError JSValue :=
  let resolved : Except JSError JSValue :=
    if region = "body" then
      match v._bodyFields[column]? with
      | none => Except.error JSError.typeError
      | some field =>
        match v._data[row]? with
        | none => Except.error JSError.typeError
        | some record => Except.ok (View.Record.get record field.name)
    else if region = "column-header" then
      match v._bodyFields[column]? with
      | none => Except.error JSError.typeError
      | some field => Except.ok (JSValue.str field.name)
    else if region = "row-header" then
      match v._headerFields[column]? with
      | none => Except.error JSError.typeError
      | some field =>
        match v._data[row]? with
        | none => Except.error JSError.typeError
        | some record => Except.ok (View.Record.get record field.name)
    else if region = "corner-header" then
      match v._headerFields[column]? with
      | none => Except.error JSError.typeError
      | some field => Except.ok (JSValue.str field.name)
    else
      Except.error JSError.unreachable
  match resolved with
  | Except.error e => Except.error e
  | Except.ok value =>
    Except.ok (if Private.isMissing v._missingValues value then JSValue.null
               else value)

/-- The raw value resolved by the region switch of `View.data`, before
missing-value substitution, stated from the spec's resolution table:
`some` exactly when the region is one of the four tags and the indices are
in range for it. -/
def View.resolveRawValue (v : View) (region : String) (row column : Nat) :
    Option JSValue :=
  if region = "body" then
    match v._bodyFields[column]?, v._data[row]? with
    | some field, some record => some (View.Record.get record field.name)
    | _, _ => none
  else if region = "column-header" then
    (v._bodyFields[column]?).map (fun field => JSValue.str field.name)
  else if region = "row-header" then
    match v._headerFields[column]?, v._data[row]? with
    | some field, some record => some (View.Record.get record field.name)
    | _, _ => none
  else if region = "corner-header" then
    (v._headerFields[column]?).map (fun field => JSValue.str field.name)
  else
    none

/-! ### Helper lemmas about the field-splitting loop -/

/-- The splitting loop is the pair of filters of the field list by
non-membership and membership of the field name in the primary-key list. -/
theorem Private.splitLoop_eq_filter (primaryKeys : List String)
    (fields : List View.IField) :
    Private.splitLoop primaryKeys fields =
      (fields.filter (fun f => !(primaryKeys.contains f.name)),
       fields.filter (fun f => primaryKeys.contains f.name)) := by
  induction fields with
  | nil => rfl
  | cons field rest ih =>
    by_cases h : field.name ∈ primaryKeys <;>
      simp [Private.splitLoop, ih, List.filter_cons, h]

/-- The two halves of the split cover the field list length. -/
theorem Private.splitLoop_length (primaryKeys : List String)
    (fields : List View.IField) :
    (Private.splitLoop primaryKeys fields).1.length
      + (Private.splitLoop primaryKeys fields).2.length = fields.length := by
  induction fields with
  | nil => rfl
  | cons field rest ih =>
    by_cases h : field.name ∈ primaryKeys <;>
      simp [Private.splitLoop, h] <;> omega

/-- The body half of the split is a sublist of the field list. -/
theorem Private.splitLoop_sublist_body (primaryKeys : List String)
    (fields : List View.IField) :
    (Private.splitLoop primaryKeys fields).1.Sublist fields := by
  rw [Private.splitLoop_eq_filter]
  exact List.filter_sublist fields

/-- The header half of the split is a sublist of the field list. -/
theorem Private.splitLoop_sublist_header (primaryKeys : List String)
    (fields : List View.IField) :
    (Private.splitLoop primaryKeys fields).2.Sublist fields := by
  rw [Private.splitLoop_eq_filter]
  exact List.filter_sublist fields

/-- Occurrence counts in the two halves sum to the count in the field
list. -/
theorem Private.splitLoop_count (primaryKeys : List String)
    (fields : List View.IField) (f : View.IField) :
    (Private.splitLoop primaryKeys fields).1.count f
      + (Private.splitLoop primaryKeys fields).2.count f
      = fields.count f := by
  induction fields with
  | nil => rfl
  | cons field rest ih =>
    by_cases hf : field = f
    · subst hf
      by_cases h : field.name ∈ primaryKeys <;>
        simp [Private.splitLoop, h, List.count_cons, ih] <;> omega
    · by_cases h : field.name ∈ primaryKeys <;>
        simp [Private.splitLoop, h, List.count_cons, hf, ih]

/-! ### Claim theorems -/

/-- Claim C1: for every schema, `splitFields` partitions the schema's field
list exactly: the two lengths sum to the field count, each half is a
sublist of the field list (so relative order matches the schema order), and
every field occurs in the two halves together exactly as often as in the
schema. -/
theorem splitFields_partition (schema : View.ISchema) :
    (Private.splitFields schema).bodyFields.length
        + (Private.splitFields schema).headerFields.length
      = schema.fields.length ∧
    (Private.splitFields schema).bodyFields.Sublist schema.fields ∧
    (Private.splitFields schema).headerFields.Sublist schema.fields ∧
    ∀ f : View.IField,
      (Private.splitFields schema).bodyFields.count f
          + (Private.splitFields schema).headerFields.count f
        = schema.fields.count f := by
  refine ⟨?_, ?_, ?_, ?_⟩
  · exact Private.splitLoop_length _ _
  · exact Private.splitLoop_sublist_body _ _
  · exact Private.splitLoop_sublist_header _ _
  · exact fun f => Private.splitLoop_count _ _ f

/-- Claim C4: `rowCount` returns the dataset length for the body region and
`1` for the other row region (`column-header`), independent of the dataset
size. -/
theorem rowCount_law (v : View) :
    v.rowCount "body" = v._data.length ∧ v.rowCount "column-header" = 1 := by
  constructor <;> simp [View.rowCount]

/-- Claim C5: `columnCount` returns the body field count for the body
region and the header field count for the row-header region. -/
theorem columnCount_law (v : View) :
    v.columnCount "body" = v._bodyFields.length ∧
    v.columnCount "row-header" = v._headerFields.length := by
  constructor <;> simp [View.columnCount]

/-- Claim C7: for every view and column index, the metadata of the body
region agrees with the column-header region, and the metadata of the
row-header region agrees with the corner-header region. -/
theorem metadata_label_consistency (v : View) (c : Nat) :
    v.metadata "body" c = v.metadata "column-header" c ∧
    v.metadata "row-header" c = v.metadata "corner-header" c := by
  constructor <;> simp [View.metadata]

/-- Claim C3: the classification of fields by the normalized primary-key
set — absent normalizes to the empty list, a single string to a one-element
list, a sequence is taken as given; the header fields are exactly the
schema fields whose name is a member of that set and the body fields the
rest; and a primary-key name matching no field is silently ignored. -/
theorem splitFields_classification (schema : View.ISchema) :
    Private.normalizePrimaryKey none = [] ∧
    (∀ s : String, Private.normalizePrimaryKey (some (Sum.inl s)) = [s]) ∧
    (∀ keys : List String,
      Private.normalizePrimaryKey (some (Sum.inr keys)) = keys) ∧
    (Private.splitFields schema).headerFields
      = schema.fields.filter
          (fun f => (Private.normalizePrimaryKey schema.primaryKey).contains
            f.name) ∧
    (Private.splitFields schema).bodyFields
      = schema.fields.filter
          (fun f => !((Private.normalizePrimaryKey schema.primaryKey).contains
            f.name)) ∧
    (∀ (n : String) (keys : List String),
      (∀ f ∈ schema.fields, f.name ≠ n) →
      Private.splitFields { schema with primaryKey := some (Sum.inr (n :: keys)) }
        = Private.splitFields { schema with primaryKey := some (Sum.inr keys) }) := by
  refine ⟨rfl, fun s => rfl, fun keys => rfl, ?_, ?_, ?_⟩
  · simp [Private.splitFields, Private.splitLoop_eq_filter]
  · simp [Private.splitFields, Private.splitLoop_eq_filter]
  · intro n keys hn
    simp only [Private.splitFields, Private.splitLoop_eq_filter,
      Private.normalizePrimaryKey]
    have hmem : ∀ f ∈ schema.fields,
        ((n :: keys).contains f.name) = (keys.contains f.name) := by
      intro f hf
      simp [List.contains_cons, hn f hf]
    have hb : schema.fields.filter (fun f => !((n :: keys).contains f.name))
        = schema.fields.filter (fun f => !(keys.contains f.name)) := by
      apply List.filter_congr
      intro f hf
      rw [hmem f hf]
    have hh : schema.fields.filter (fun f => (n :: keys).contains f.name)
        = schema.fields.filter (fun f => keys.contains f.name) := by
      apply List.filter_congr
      intro f hf
      rw [hmem f hf]
    rw [hb, hh]

/-- A small concrete view used to instantiate theorems at concrete inputs:
header field `id` (the primary key), body field `x`, one record, and `NA`
declared as a missing value. -/
def sampleView : View :=
  View.create
    { schema :=
        { fields := [{ name := "id", type := "integer" },
                     { name := "x", type := "string" }]
          missingValues := some ["NA"]
          primaryKey := some (Sum.inl "id") }
      data := [[("id", JSValue.num 1), ("x", JSValue.str "NA")]] }

/-- Witness for `splitFields_classification`: an unmatched primary-key name
`zz` added in front of the key list leaves the split unchanged on a
concrete one-field schema. -/
theorem splitFields_classification_witness :
    Private.splitFields { fields := [{ name := "a", type := "string" }],
                          missingValues := none,
                          primaryKey := some (Sum.inr ["zz", "a"]) }
      = Private.splitFields { fields := [{ name := "a", type := "string" }],
                              missingValues := none,
                              primaryKey := some (Sum.inr ["a"]) } := by
  have h := splitFields_classification
    { fields := [{ name := "a", type := "string" }], missingValues := none,
      primaryKey := some (Sum.inr ["a"]) }
  exact h.2.2.2.2.2 "zz" ["a"] (by decide)

/-- Claim C6: a view built from a schema with an empty `missingValues` list
answers every query exactly as the view built from the same schema with
`missingValues` absent. -/
theorem emptyMissingValues_equiv (schema : View.ISchema) (d : View.DataSource) :
    (∀ region,
      (View.create { schema := { schema with missingValues := some [] },
                     data := d }).rowCount region
        = (View.create { schema := { schema with missingValues := none },
                         data := d }).rowCount region) ∧
    (∀ region,
      (View.create { schema := { schema with missingValues := some [] },
                     data := d }).columnCount region
        = (View.create { schema := { schema with missingValues := none },
                         data := d }).columnCount region) ∧
    (∀ region column,
      (View.create { schema := { schema with missingValues := some [] },
                     data := d }).metadata region column
        = (View.create { schema := { schema with missingValues := none },
                         data := d }).metadata region column) ∧
    (∀ region row column,
      (View.create { schema := { schema with missingValues := some [] },
                     data := d }).data region row column
        = (View.create { schema := { schema with missingValues := none },
                         data := d }).data region row column) := by
  have hv : View.create { schema := { schema with missingValues := some [] },
                          data := d }
      = View.create { schema := { schema with missingValues := none },
                      data := d } := rfl
  exact ⟨fun region => by rw [hv], fun region => by rw [hv],
         fun region column => by rw [hv], fun region row column => by rw [hv]⟩

/-- Claim C8: a region tag outside the closed four-tag set makes `data`
throw the `unreachable` error, and for each of the four tags that branch is
never taken (the result is a value or a TypeError, never `unreachable`). -/
theorem data_invalid_region (v : View) (region : String) (row column : Nat) :
    (region ≠ "body" → region ≠ "column-header" → region ≠ "row-header" →
      region ≠ "corner-header" →
      v.data region row column = Except.error JSError.unreachable) ∧
    ((region = "body" ∨ region = "column-header" ∨ region = "row-header" ∨
        region = "corner-header") →
      v.data region row column ≠ Except.error JSError.unreachable) := by
  constructor
  · intro h1 h2 h3 h4
    simp [View.data, h1, h2, h3, h4]
  · rintro (rfl | rfl | rfl | rfl) <;>
    · rcases hcol : v._bodyFields[column]? with _ | field <;>
        rcases hcolh : v._headerFields[column]? with _ | fieldh <;>
          rcases hrow : v._data[row]? with _ | record <;>
            simp [View.data, hcol, hcolh, hrow]

/-- Witness for `data_invalid_region`: the tag `banana` throws
`unreachable` while the tag `body` does not. -/
theorem data_invalid_region_witness :
    sampleView.data "banana" 0 0 = Except.error JSError.unreachable ∧
    sampleView.data "body" 0 0 ≠ Except.error JSError.unreachable :=
  ⟨(data_invalid_region sampleView "banana" 0 0).1 (by decide) (by decide)
      (by decide) (by decide),
   (data_invalid_region sampleView "body" 0 0).2 (Or.inl rfl)⟩

/-- Claim C10: for the column-header and corner-header regions, `data` does
not depend on the row argument, for every column index. -/
theorem data_header_row_independent (v : View) (column r1 r2 : Nat) :
    v.data "column-header" r1 column = v.data "column-header" r2 column ∧
    v.data "corner-header" r1 column = v.data "corner-header" r2 column :=
  ⟨rfl, rfl⟩

/-- The view of spec Scenario A: a single integer field `id` which is the
primary key, one record `[id: 1]`, and no missing values. -/
def scenarioAView : View :=
  View.create
    { schema :=
        { fields := [{ name := "id", type := "integer" }]
          missingValues := none
          primaryKey := some (Sum.inl "id") }
      data := [[("id", JSValue.num 1)]] }

/-- Claim C9: Scenario A — the single primary-key field becomes the only
header field, the body is empty, and the data queries return the record
value and the field label. -/
theorem scenarioA_results :
    scenarioAView._bodyFields = [] ∧
    scenarioAView._headerFields = [{ name := "id", type := "integer" }] ∧
    scenarioAView.columnCount "body" = 0 ∧
    scenarioAView.columnCount "row-header" = 1 ∧
    scenarioAView.data "row-header" 0 0 = Except.ok (JSValue.num 1) ∧
    scenarioAView.data "corner-header" 0 0 = Except.ok (JSValue.str "id") :=
  ⟨rfl, rfl, rfl, rfl, rfl, rfl⟩

/-- Claim C2 (amended): for a valid region and in-bounds indices, `data`
returns the resolved raw value with the missing-value substitution applied:
canonical null when the raw value is a string in the missing-value index,
otherwise the raw value unchanged (so a raw null is returned as null even
though it is not a string in the index). -/
theorem data_missing_value_law (v : View) (region : String) (row column : Nat)
    (raw : JSValue) (h : v.resolveRawValue region row column = some raw) :
    v.data region row column =
      Except.ok (if Private.isMissing v._missingValues raw then JSValue.null
                 else raw) := by
  simp only [View.resolveRawValue] at h
  simp only [View.data]
  split_ifs at h ⊢ <;>
    rcases hcol : v._bodyFields[column]? with _ | field <;>
      rcases hcolh : v._headerFields[column]? with _ | fieldh <;>
        rcases hrow : v._data[row]? with _ | record <;>
          simp_all

/-- Witness for `data_missing_value_law`: on the sample view the body cell
holding the string `NA` resolves to a missing value and reads as null. -/
theorem data_missing_value_law_witness :
    sampleView.data "body" 0 0 = Except.ok JSValue.null := by
  have h := data_missing_value_law sampleView "body" 0 0 (JSValue.str "NA") rfl
  simpa using h

/-- A view whose single record holds a raw JSON null under field `x`, with
`NA` declared as a missing value. -/
def nullCellView : View :=
  View.create
    { schema := { fields := [{ name := "x", type := "string" }]
                  missingValues := some ["NA"]
                  primaryKey := none }
      data := [[("x", JSValue.null)]] }

/-- Claim C2 counterexample: at a cell whose resolved raw value is the JSON
null, `data` returns null although the raw value is not a string belonging
to the missing-value index, refuting the only-if direction of the claimed
equivalence. -/
theorem data_null_without_missing_string :
    nullCellView.data "body" 0 0 = Except.ok JSValue.null ∧
    nullCellView.resolveRawValue "body" 0 0 = some JSValue.null ∧
    Private.isMissing nullCellView._missingValues JSValue.null = false :=
  ⟨rfl, rfl, rfl⟩
